import Mathlib

/-!
Verification of the receipt-scanning core of `app/services/ticket_scanner_service.py`
(class `TicketScannerService`).  The Python code is shallowly embedded: strings are
`List Char`, Python floats produced from decimal tokens are exact rationals `ℚ`,
and each method becomes a total Lean function with the same structure.  The regular
expressions used by the source are small and deterministic (their character classes
are pairwise disjoint at every choice point, except the artifact-stripping pattern,
whose ordered alternation is embedded explicitly), so each one is embedded as a
straight-line matcher plus a leftmost-position scan.

Python `\d` is modelled as the ASCII digits, and the Unicode points that actually
occur on the Spanish receipts this service parses (accented vowels, ñ, ü) are given
explicit case maps; `str.strip`/`\s` use the ASCII whitespace characters.
-/

namespace TicketScan

/-- ASCII whitespace, as matched by Python `\s` and stripped by `str.strip`. -/
def pyWs (c : Char) : Bool :=
  c = ' ' || c = '\t' || c = '\n' || c = '\r' || c = '\x0b' || c = '\x0c'

/-- ASCII decimal digit, the model of Python `\d` and `float`-acceptable digits. -/
def isDigitC (c : Char) : Bool :=
  '0' ≤ c && c ≤ '9'

/-- Alphabetic characters of the receipt alphabet: ASCII letters plus the accented
letters appearing in the Spanish token tables of the source. -/
def pyIsAlphaC (c : Char) : Bool :=
  ( 'A' ≤ c && c ≤ 'Z') || ( 'a' ≤ c && c ≤ 'z') ||
  c = 'á' || c = 'é' || c = 'í' || c = 'ó' || c = 'ú' || c = 'ñ' || c = 'ü' ||
  c = 'Á' || c = 'É' || c = 'Í' || c = 'Ó' || c = 'Ú' || c = 'Ñ' || c = 'Ü'

/-- Python `str.lower` on the receipt alphabet. -/
def pyLowerC (c : Char) : Char :=
  if 'A' ≤ c && c ≤ 'Z' then Char.ofNat (c.toNat + 32)
  else if c = 'Á' then 'á' else if c = 'É' then 'é' else if c = 'Í' then 'í'
  else if c = 'Ó' then 'ó' else if c = 'Ú' then 'ú' else if c = 'Ñ' then 'ñ'
  else if c = 'Ü' then 'ü' else c

/-- Python `str.upper` on the receipt alphabet. -/
def pyUpperC (c : Char) : Char :=
  if 'a' ≤ c && c ≤ 'z' then Char.ofNat (c.toNat - 32)
  else if c = 'á' then 'Á' else if c = 'é' then 'É' else if c = 'í' then 'Í'
  else if c = 'ó' then 'Ó' else if c = 'ú' then 'Ú' else if c = 'ñ' then 'Ñ'
  else if c = 'ü' then 'Ü' else c

/-- Python `str.lower` lifted to character lists. -/
def lowerL (cs : List Char) : List Char :=
  cs.map pyLowerC

/-- Python `str.strip`: drop whitespace from both ends. -/
def strip (cs : List Char) : List Char :=
  ((cs.dropWhile pyWs).reverse.dropWhile pyWs).reverse

/-- Word-by-word prefix test (`List.isPrefixOf` with explicit equations). -/
def isPrefixL : List Char → List Char → Bool
  | [], _ => true
  | _ :: _, [] => false
  | a :: as, b :: bs => a = b && isPrefixL as bs

/-- Python substring containment `needle in hay`. -/
def infixOfL (needle : List Char) : List Char → Bool
  | [] => isPrefixL needle []
  | c :: rest => isPrefixL needle (c :: rest) || infixOfL needle rest

/-- Case-insensitive prefix test; the pattern is given in lower case. -/
def ciHasPref (pat : List Char) (cs : List Char) : Bool :=
  isPrefixL pat (lowerL (cs.take pat.length))

/-- Python `text.split('\n')` (keeps empty pieces). -/
def splitNL : List Char → List (List Char)
  | [] => [[]]
  | c :: rest =>
    match splitNL rest with
    | [] => [[]]
    | cur :: done => if c = '\n' then [] :: cur :: done else (c :: cur) :: done

/-- Numeric value of a digit string, as Python `int` on a `\d+` group. -/
def natOfDigits (ds : List Char) : ℕ :=
  ds.foldl (fun n c => 10 * n + (c.toNat - 48)) 0

/-- Python `float` applied to a token made of digits and dots (the only shape the
scanner ever passes to `float` after its character-class regexes and comma/space
normalisation): accepted iff there is at least one digit, at most one dot, and
nothing else; the value is the exact decimal as a rational. -/
def parseDec (cs : List Char) : Option ℚ :=
  let intPart := cs.takeWhile isDigitC
  match cs.dropWhile isDigitC with
  | [] => if intPart.isEmpty then none else some (mkRat (natOfDigits intPart) 1)
  | '.' :: frac =>
    if frac.all isDigitC && !(intPart.isEmpty && frac.isEmpty) then
      some (mkRat (natOfDigits (intPart ++ frac)) (10 ^ frac.length))
    else none
  | _ => none

/-- Character class of the price regex `^[\d\s,\.]+$`. -/
def priceClass (c : Char) : Bool :=
  isDigitC c || pyWs c || c = ',' || c = '.'

/-- Source method `TicketScannerService.is_price`: strip, require the all-numeric pattern
`^[\d\s,\.]+$`, drop spaces, turn commas into dots, parse as a float, and accept
only values in the open interval (0.10, 200). -/
def is_price (s : List Char) : Option ℚ :=
  let l := strip s
  if !l.isEmpty && l.all priceClass then
    let c1 := l.filter (fun c => c ≠ ' ')
    let c2 := c1.map (fun c => if c = ',' then '.' else c)
    match parseDec c2 with
    | some price => if mkRat 1 10 < price ∧ price < 200 then some price else none
    | none => none
  else none

/-- The stoplist of `TicketScannerService.is_description` (receipt boilerplate). -/
def skipWords : List String :=
  [ "mercadona", "factura", "telefono", "teléfono", "avda",
    "descripción", "descripcion", "p.unit", "p. unit", "imp.", "unit",
    "total", "tarjeta", "iva", "base", "cuota", "debit",
    "mastercard", "bancaria", "torremo", "s -a", "simplificada"]

/-- Source method `TicketScannerService.is_description`: strip; reject lines shorter than two
characters, lines with no alphabetic character, all-numeric lines, and lines whose
lower-cased form contains a stoplist word. -/
def is_description (s : List Char) : Bool :=
  let l := strip s
  if l.length < 2 then false
  else if !l.any pyIsAlphaC then false
  else if !l.isEmpty && l.all priceClass then false
  else
    let low := lowerL l
    !skipWords.any (fun w => infixOfL w.data low)

/-- Word character of Python `re` (`\w`) over the receipt alphabet. -/
def isWordC (c : Char) : Bool :=
  pyIsAlphaC c || isDigitC c || c = '_'

/-- Word character of an optional character (`none` = string edge). -/
def isWordO : Option Char → Bool
  | some c => isWordC c
  | none => false

/-- The `\b` word-boundary assertion between two adjacent positions. -/
def bnd (a b : Option Char) : Bool :=
  isWordO a != isWordO b

/-- The ordered alternatives of the artifact pattern
`(Unit|P\.?\s*Unit|Imp\.|€|P\.)` (flags `IGNORECASE`), tried at the head of `cs`;
each successful alternative contributes the number of characters it consumes.
Regex alternation is leftmost-alternative-first, and a later alternative is tried
when an earlier one fails its trailing `\b`, so all candidate lengths are listed. -/
def artifactCands (cs : List Char) : List ℕ :=
  let alt1 := if ciHasPref ( "unit").data cs then [4] else []
  let alt2 :=
    match cs with
    | c :: rest =>
      if pyLowerC c = 'p' then
        let dotN := match rest with | '.' :: _ => 1 | _ => 0
        let r1 := rest.drop dotN
        let wsN := (r1.takeWhile pyWs).length
        if ciHasPref ( "unit").data (r1.drop wsN) then [1 + dotN + wsN + 4] else []
      else []
    | [] => []
  let alt3 := if ciHasPref ( "imp.").data cs then [4] else []
  let alt4 := match cs with | '€' :: _ => [1] | _ => []
  let alt5 :=
    match cs with
    | c :: '.' :: _ => if pyLowerC c = 'p' then [2] else []
    | _ => []
  alt1 ++ alt2 ++ alt3 ++ alt4 ++ alt5

/-- One scan step of `re.sub(r'\b(Unit|P\.?\s*Unit|Imp\.|€|P\.)\b', '', ...)`:
walk the string left to right (fuel = remaining length), keeping the previous
original character for the `\b` assertions, and drop every leftmost match. -/
def subArtF : ℕ → Option Char → List Char → List Char
  | 0, _, _ => []
  | _ + 1, _, [] => []
  | fuel + 1, prev, c :: rest =>
    let cs := c :: rest
    if bnd prev (some c) then
      match (artifactCands cs).find? (fun len => bnd cs[len - 1]? cs[len]?) with
      | some len =>
        match cs[len - 1]? with
        | some last => subArtF fuel (some last) (cs.drop len)
        | none => subArtF fuel (some c) rest
      | none => c :: subArtF fuel (some c) rest
    else c :: subArtF fuel (some c) rest

/-- The artifact-stripping substitution applied to a whole string. -/
def subArtifacts (cs : List Char) : List Char :=
  subArtF cs.length none cs

/-- Python `re.sub(r'\s+', ' ', s)`: collapse every whitespace run to one space. -/
def collapseAux (prevWs : Bool) : List Char → List Char
  | [] => []
  | c :: rest =>
    if pyWs c then
      if prevWs then collapseAux true rest else ' ' :: collapseAux true rest
    else c :: collapseAux false rest

/-- Description cleanup of `parse_product_lines`: strip artifact tokens, then
`strip`, then collapse whitespace (the source strips before collapsing). -/
def cleanDesc (cs : List Char) : List Char :=
  collapseAux false (strip (subArtifacts cs))

/-- Python `' '.join(description_parts)`. -/
def joinSp (parts : List (List Char)) : List Char :=
  List.intercalate [ ' '] parts

/-- Backtracking tail of `re.match(r'^(\d+)\s+(.+)', s)` when `(.+)` has no
characters left after a greedy `\s+` over the whitespace run `w`: `\s+` hands back
trailing whitespace one character at a time, and `.` cannot match a newline, so
the first (longest-kept) split whose remainder starts with a non-newline character
wins; the group is that remainder up to the next newline. -/
def backtrackQty (w : List Char) : Option (List Char) :=
  ((List.range w.length).reverse.filter (fun k => 1 ≤ k)).findSome? (fun k =>
    match w.drop k with
    | c :: rest => if c ≠ '\n' then some ((c :: rest).takeWhile (fun c' => c' ≠ '\n')) else none
    | [] => none)

/-- Python `re.match(r'^(\d+)\s+(.+)', s)`: the leading digit group and the description
group, or `none` when the pattern does not match at the start of the string. -/
def qtyMatch (s : List Char) : Option (List Char × List Char) :=
  let ds := s.takeWhile isDigitC
  if ds.isEmpty then none
  else
    let r1 := s.drop ds.length
    let w := r1.takeWhile pyWs
    if w.isEmpty then none
    else
      let rest := r1.drop w.length
      if rest.isEmpty then
        match backtrackQty w with
        | some g2 => some (ds, g2)
        | none => none
      else some (ds, rest.takeWhile (fun c => c ≠ '\n'))

/-- Quantity extraction of `parse_product_lines`: `int(group(1))` and the stripped
`group(2)` when the quantity regex matches, else quantity 1 and the stripped
description. -/
def extractQty (s : List Char) : ℕ × List Char :=
  match qtyMatch s with
  | some (ds, g2) => (natOfDigits ds, strip g2)
  | none => (1, strip s)

/-- One structured record of `parse_product_lines` (the dict appended to
`products`). -/
structure LineItem where
  quantity : ℕ
  description : String
  unit_price : Option ℚ
  price : ℚ
  deriving DecidableEq, Repr

/-- The line walk of `parse_product_lines` over the window between header and
total: skip blank lines; a price line with a non-empty buffer flushes the buffer
into a `LineItem`, looking one line ahead (when the quantity exceeds 1) for a
strictly larger total price and consuming it too; a price line with an empty
buffer and any other unclassifiable line are skipped; description lines are
appended (stripped) to the buffer. -/
def segLoopF : ℕ → List (List Char) → List (List Char) → List LineItem
  | 0, _, _ => []
  | _ + 1, [], _ => []
  | fuel + 1, line :: rest, parts =>
    let l := strip line
    if l.isEmpty then segLoopF fuel rest parts
    else
      match is_price l with
      | some price =>
        if parts.isEmpty then segLoopF fuel rest parts
        else
          let qd := extractQty (cleanDesc (joinSp parts))
          if 1 < qd.1 then
            match rest with
            | [] => [⟨qd.1, String.mk qd.2, none, price⟩]
            | next :: rest2 =>
              match is_price (strip next) with
              | some nextPrice =>
                if price < nextPrice then
                  ⟨qd.1, String.mk qd.2, some price, nextPrice⟩ :: segLoopF fuel rest2 []
                else ⟨qd.1, String.mk qd.2, none, price⟩ :: segLoopF fuel rest []
              | none => ⟨qd.1, String.mk qd.2, none, price⟩ :: segLoopF fuel rest []
          else ⟨qd.1, String.mk qd.2, none, price⟩ :: segLoopF fuel rest []
      | none =>
        if is_description l then segLoopF fuel rest (parts ++ [l])
        else segLoopF fuel rest parts

/-- The line walk at its natural fuel (one unit per list element; each loop
iteration of the source consumes at least one line, so this fuel is enough and
`segLoopF` is fuel-irrelevant beyond it). -/
def segLoop (lines : List (List Char)) (parts : List (List Char)) : List LineItem :=
  segLoopF lines.length lines parts

/-- Start boundary: one past the first line containing "descripción"/"descripcion"
(lower-cased), or 0 when no header is found. -/
def findStart (lines : List (List Char)) : ℕ :=
  match lines.findIdx? (fun l =>
      infixOfL ( "descripción").data (lowerL l) || infixOfL ( "descripcion").data (lowerL l)) with
  | some i => i + 1
  | none => 0

/-- End boundary: the first line at or after `start` whose stripped form starts
with "total" (case-insensitively), or the number of lines. -/
def findEnd (lines : List (List Char)) (start : ℕ) : ℕ :=
  match (lines.drop start).findIdx? (fun l => ciHasPref ( "total").data (strip l)) with
  | some j => start + j
  | none => lines.length

/-- Source method `TicketScannerService.parse_product_lines`. -/
def parse_product_lines (text : String) : List LineItem :=
  let lines := splitNL text.data
  let startIdx := findStart lines
  let endIdx := findEnd lines startIdx
  segLoop ((lines.take endIdx).drop startIdx) []

/-- Leftmost `re.search`: try the matcher at every position, left to right
(every pattern below needs at least one character, so the empty tail is last). -/
def scanFirst {α : Type} (f : List Char → Option α) : List Char → Option α
  | [] => f []
  | c :: rest =>
    match f (c :: rest) with
    | some a => some a
    | none => scanFirst f rest

/-- Character class `[\d,\.]` of the amount groups. -/
def amtClass (c : Char) : Bool :=
  isDigitC c || c = ',' || c = '.'

/-- Match `[tT][oO][tT][aA][lL]\s*\(?[€eE]?\)?\s*([\d,\.]+)` at the head of `cs`
and return the amount group.  Every step is forced (all the optional classes are
pairwise disjoint from their successors), so no backtracking is needed. -/
def matchTotal1 (cs : List Char) : Option (List Char) :=
  if ciHasPref ( "total").data cs then
    let r1 := cs.drop 5
    let r2 := r1.drop (r1.takeWhile pyWs).length
    let r3 := match r2 with | '(' :: t => t | _ => r2
    let r4 := match r3 with
      | c :: t => if c = '€' || c = 'e' || c = 'E' then t else r3
      | [] => r3
    let r5 := match r4 with | ')' :: t => t | _ => r4
    let r6 := r5.drop (r5.takeWhile pyWs).length
    let g := r6.takeWhile amtClass
    if g.isEmpty then none else some g
  else none

/-- Match `[iI][mM][pP][oO][rR][tT][eE][:;]?\s*([\d,\.]+)\s*€` at the head of
`cs` and return the amount group (again deterministic: handing characters back
from the greedy group can never produce the required whitespace or euro sign). -/
def matchTotal2 (cs : List Char) : Option (List Char) :=
  if ciHasPref ( "importe").data cs then
    let r1 := cs.drop 7
    let r2 := match r1 with | ':' :: t => t | ';' :: t => t | _ => r1
    let r3 := r2.drop (r2.takeWhile pyWs).length
    let g := r3.takeWhile amtClass
    if g.isEmpty then none
    else
      let r4 := r3.drop g.length
      let r5 := r4.drop (r4.takeWhile pyWs).length
      match r5 with
      | '€' :: _ => some g
      | _ => none
  else none

/-- Comma-to-dot normalisation of an amount group (`.replace(',', '.')`). -/
def commaDot (g : List Char) : List Char :=
  g.map (fun c => if c = ',' then '.' else c)

/-- The numeric value of the first match of a total pattern, `none` when the
pattern has no match or `float` rejects the (comma-normalised) group. -/
def totalValue (match1 : List Char → Option (List Char)) (cs : List Char) : Option ℚ :=
  match scanFirst match1 cs with
  | some g => parseDec (commaDot g)
  | none => none

/-- The `total` computation of `extract_totals_and_metadata`: try the two
patterns in order; the first whose first match parses into (1, 10000) sets the
total and breaks; otherwise the total keeps its initial value 0.0. -/
def extractTotal (text : String) : ℚ :=
  let viaSecond : ℚ :=
    match totalValue matchTotal2 text.data with
    | some v => if 1 < v ∧ v < 10000 then v else 0
    | none => 0
  match totalValue matchTotal1 text.data with
  | some v => if 1 < v ∧ v < 10000 then v else viaSecond
  | none => viaSecond

/-- All values of the first total pattern, one candidate per starting position
(leftmost first).  This is the reading of the specification under which *every*
"total"-labelled amount is a candidate; the source only ever examines the head. -/
def allTotal1Values : List Char → List ℚ
  | [] => []
  | c :: rest =>
    match (matchTotal1 (c :: rest)).bind (fun g => parseDec (commaDot g)) with
    | some v => v :: allTotal1Values rest
    | none => allTotal1Values rest

/-- One tax row of `extract_totals_and_metadata`. -/
structure IvaDetail where
  tasa : String
  base : ℚ
  cuota : ℚ
  deriving DecidableEq, Repr

/-- Match `(\d+)%\s+([\d,\.]+)\s+([\d,\.]+)` at the head of `cs`; returns the
three groups and the total length consumed (for `finditer` resumption). -/
def matchIva (cs : List Char) : Option (List Char × List Char × List Char × ℕ) :=
  let d1 := cs.takeWhile isDigitC
  if d1.isEmpty then none
  else
    match cs.drop d1.length with
    | '%' :: r1 =>
      let w1 := r1.takeWhile pyWs
      if w1.isEmpty then none
      else
        let r2 := r1.drop w1.length
        let g2 := r2.takeWhile amtClass
        if g2.isEmpty then none
        else
          let r3 := r2.drop g2.length
          let w2 := r3.takeWhile pyWs
          if w2.isEmpty then none
          else
            let r4 := r3.drop w2.length
            let g3 := r4.takeWhile amtClass
            if g3.isEmpty then none
            else some (d1, g2, g3, d1.length + 1 + w1.length + g2.length + w2.length + g3.length)
    | _ => none

/-- Python `re.finditer` for the tax pattern: leftmost matches, resuming after each
match end (every match consumes at least one character, so the string length is
enough fuel). -/
def finditerIva : ℕ → List Char → List (List Char × List Char × List Char)
  | 0, _ => []
  | _ + 1, [] => []
  | fuel + 1, c :: rest =>
    match matchIva (c :: rest) with
    | some (a, b, g, len) => (a, b, g) :: finditerIva fuel ((c :: rest).drop len)
    | none => finditerIva fuel rest

/-- The tax rows of `extract_totals_and_metadata`: every pattern match whose base
and amount both parse and are positive. -/
def ivaDetails (text : String) : List IvaDetail :=
  (finditerIva text.data.length text.data).filterMap (fun g =>
    match parseDec (commaDot g.2.1), parseDec (commaDot g.2.2) with
    | some base, some cuota =>
      if 0 < base ∧ 0 < cuota then
        some ⟨String.mk g.1 ++ "%", base, cuota⟩
      else none
    | _, _ => none)

/-- The retailer table of `extract_store_name` (fragment, canonical name), in
source (insertion) order. -/
def storeTable : List (String × String) :=
  [ ( "mercadona", "Mercadona"), ( "carrefour", "Carrefour"), ( "dia", "Dia"),
    ( "lidl", "Lidl"), ( "aldi", "Aldi"), ( "alcampo", "Alcampo"),
    ( "eroski", "Eroski"), ( "hipercor", "Hipercor"),
    ( "el corte", "El Corte Inglés"), ( "ahorra", "Ahorramas"), ( "consum", "Consum")]

/-- Source method `TicketScannerService.extract_store_name`: first table fragment contained in
the lower-cased text, else the sentinel "Desconocido". -/
def extract_store_name (text : String) : String :=
  match storeTable.find? (fun kv => infixOfL kv.1.data (lowerL text.data)) with
  | some kv => kv.2
  | none => "Desconocido"

/-- Character class of the city group
`[A-ZÁÉÍÓÚÑa-zñáéíóú\s\]]` of `extract_location`. -/
def cityClass (c : Char) : Bool :=
  ( 'A' ≤ c && c ≤ 'Z') || ( 'a' ≤ c && c ≤ 'z') ||
  c = 'Á' || c = 'É' || c = 'Í' || c = 'Ó' || c = 'Ú' || c = 'Ñ' ||
  c = 'ñ' || c = 'á' || c = 'é' || c = 'í' || c = 'ó' || c = 'ú' ||
  pyWs c || c = ']'

/-- Match `\d{5}\s+([A-ZÁÉÍÓÚÑa-zñáéíóú\s\]]+)` at the head of `cs`. -/
def matchCity (cs : List Char) : Option (List Char) :=
  let d := cs.take 5
  if d.length = 5 && d.all isDigitC then
    let r1 := cs.drop 5
    let w := r1.takeWhile pyWs
    if w.isEmpty then none
    else
      let g := (r1.drop w.length).takeWhile cityClass
      if g.isEmpty then none else some g
  else none

/-- Source method `TicketScannerService.extract_location`: postal code followed by a city run;
the group is stripped and OCR bracket artifacts are removed; sentinel
"Desconocido". -/
def extract_location (text : String) : String :=
  match scanFirst matchCity text.data with
  | some g => String.mk ((strip g).filter (fun c => c ≠ ']' && c ≠ '['))
  | none => "Desconocido"

/-- A Python `datetime` value, reduced to what the pipeline observes: a day
serial (proleptic Gregorian, monotone in calendar date) and the seconds within
the day.  `timedelta(days = n)` acts on the serial only.  (`isoformat`, used by
the source when serialising, is injective on this data.) -/
structure PyDateTime where
  day : ℤ
  sec : ℕ
  deriving DecidableEq, Repr

/-- Python `datetime + timedelta(days = n)`: pure date arithmetic, the time of day is
untouched. -/
def addDays (dt : PyDateTime) (n : ℕ) : PyDateTime :=
  ⟨dt.day + n, dt.sec⟩

/-- Gregorian leap year, as `calendar`/`datetime` implement it. -/
def isLeap (y : ℕ) : Bool :=
  y % 4 = 0 && (y % 100 ≠ 0 || y % 400 = 0)

/-- Days in a month of the proleptic Gregorian calendar. -/
def daysInMonth (y m : ℕ) : ℕ :=
  if m = 2 then (if isLeap y then 29 else 28)
  else if m = 4 || m = 6 || m = 9 || m = 11 then 30
  else 31

/-- Day serial of a civil date (standard shifted-March formula; only
monotonicity and translation-invariance matter to the pipeline). -/
def toOrdinal (y m d : ℕ) : ℤ :=
  let y' : ℤ := if m ≤ 2 then (y : ℤ) - 1 else (y : ℤ)
  let m' : ℤ := if m ≤ 2 then (m : ℤ) + 12 else (m : ℤ)
  365 * y' + y' / 4 - y' / 100 + y' / 400 + (153 * (m' + 1)) / 5 + (d : ℤ)

/-- Python `datetime(year, month, day)`: `none` models the `ValueError` of an invalid
date (caught by the source and treated as no match). -/
def mkPyDate (y m d : ℕ) : Option PyDateTime :=
  if 1 ≤ y ∧ y ≤ 9999 ∧ 1 ≤ m ∧ m ≤ 12 ∧ 1 ≤ d ∧ d ≤ daysInMonth y m then
    some ⟨toOrdinal y m d, 0⟩
  else none

/-- Match `(\d{2})<sep>(\d{2})<sep>(\d{4})` at the head of `cs`; groups are
(day, month, year) as parsed by `int`. -/
def matchDate (sep : Char) (cs : List Char) : Option (ℕ × ℕ × ℕ) :=
  match cs with
  | a :: b :: s1 :: c :: d :: s2 :: e :: f :: g :: h :: _ =>
    if [a, b, c, d, e, f, g, h].all isDigitC && s1 = sep && s2 = sep then
      some (natOfDigits [a, b], natOfDigits [c, d], natOfDigits [e, f, g, h])
    else none
  | _ => none

/-- Python `re.search` of one date pattern over the text. -/
def searchDate (sep : Char) (cs : List Char) : Option (ℕ × ℕ × ℕ) :=
  scanFirst (matchDate sep) cs

/-- Source method `TicketScannerService.extract_purchase_date`: try `DD/MM/YYYY` then
`DD-MM-YYYY`; an invalid calendar date falls through to the next pattern; the
fallback is `datetime.now()`, passed in as `now`. -/
def extract_purchase_date (now : PyDateTime) (text : String) : PyDateTime :=
  let viaDash : PyDateTime :=
    match searchDate '-' text.data with
    | some (d, m, y) =>
      match mkPyDate y m d with
      | some dt => dt
      | none => now
    | none => now
  match searchDate '/' text.data with
  | some (d, m, y) =>
    match mkPyDate y m d with
    | some dt => dt
    | none => viaDash
  | none => viaDash

/-- Python `str.split()` (no argument): split on whitespace runs, dropping empty
pieces; `cur` accumulates the current word reversed. -/
def splitWsAux (cur : List Char) : List Char → List (List Char)
  | [] => if cur.isEmpty then [] else [cur.reverse]
  | c :: rest =>
    if pyWs c then
      if cur.isEmpty then splitWsAux [] rest else cur.reverse :: splitWsAux [] rest
    else splitWsAux (c :: cur) rest

/-- Python `str.split()` returning `String` words. -/
def splitWs (cs : List Char) : List String :=
  (splitWsAux [] cs).map String.mk

/-- Modelled from the spec: the reference tables `PRODUCT_DATABASE`,
`CATEGORY_KEYWORDS`, `DEFAULT_EXPIRATION_DAYS` and `DEFAULT_LOCATIONS` live in
`app/utils/product_database.py`, which is not part of the scanned sources; per
the specification they are immutable configuration tables
(`name_fragment -> (category, shelf_life_days, location)`, `category -> keyword
list`, `category -> days`, `category -> location`) loaded at process start, so
the classifier is embedded as a function of those tables.  The fuzzy matcher
`fuzzywuzzy.process.extractOne(word, keys, scorer = fuzz.ratio)` is an external
library call returning the best-scoring table key with its 0–100 score (or
`None` when there are no choices); it is likewise a parameter. -/
structure ClassifierEnv where
  db : List (String × String × ℕ × String)
  extractOne : String → Option (String × ℕ)
  keywords : List (String × List String)
  defaultDays : String → ℕ
  defaultLoc : String → String

/-- Tier 1 of `categorize_product`: the first table key (in insertion order)
contained in the lower-cased description, with its mapped triple. -/
def findContainedDB (db : List (String × String × ℕ × String)) (low : List Char) :
    Option (String × ℕ × String) :=
  (db.find? (fun kv => infixOfL kv.1.data low)).map (fun kv => kv.2)

/-- Python `PRODUCT_DATABASE[key]` (the library only returns keys of the
dictionary, so the lookup is modelled as optional). -/
def dbLookup (db : List (String × String × ℕ × String)) (k : String) :
    Option (String × ℕ × String) :=
  (db.find? (fun kv => kv.1 = k)).map (fun kv => kv.2)

/-- Tier 2 state walk of `categorize_product`: for each word of length at least
3, ask the fuzzy matcher and keep the strictly best score with its table entry. -/
def fuzzyBest (env : ClassifierEnv) (words : List String) :
    ℕ × Option (String × ℕ × String) :=
  words.foldl (fun st w =>
    if w.length < 3 then st
    else
      match env.extractOne w with
      | some ks => if st.1 < ks.2 then (ks.2, dbLookup env.db ks.1) else st
      | none => st) (0, none)

/-- Tier 3 of `categorize_product`: first category with a keyword contained in
the lower-cased description, with its default shelf life and location. -/
def keywordTier (env : ClassifierEnv) (low : List Char) : String × ℕ × String :=
  match env.keywords.findSome? (fun ck =>
      if ck.2.any (fun kw => infixOfL kw.data low) then some ck.1 else none) with
  | some cat => (cat, env.defaultDays cat, env.defaultLoc cat)
  | none => ( "other", 30, "pantry")

/-- Source method `TicketScannerService.categorize_product`: exact containment, then fuzzy
word match above score 70, then category keywords, then the default
(`"other"`, 30 days, `"pantry"`). -/
def categorize_product (env : ClassifierEnv) (product_name : String) :
    String × ℕ × String :=
  let low := lowerL product_name.data
  match findContainedDB env.db low with
  | some t => t
  | none =>
    let fb := fuzzyBest env (splitWs low)
    if 70 < fb.1 then
      match fb.2 with
      | some t => t
      | none => keywordTier env low
    else keywordTier env low

/-- Python `str.title()` over the receipt alphabet: the first letter of each
alphabetic run is upper-cased, the rest lower-cased. -/
def pyTitleAux (prevAlpha : Bool) : List Char → List Char
  | [] => []
  | c :: rest =>
    if pyIsAlphaC c then
      (if prevAlpha then pyLowerC c else pyUpperC c) :: pyTitleAux true rest
    else c :: pyTitleAux false rest

/-- Python `str.title()` on strings. -/
def pyTitle (s : String) : String :=
  String.mk (pyTitleAux false s.data)

/-- Match `(\d+)\s*(kg|g|l|ml|gr)` at the head of `cs` (ordered alternation as
written in the source, so "gr" is in fact captured as "g"). -/
def matchWeight (cs : List Char) : Option (ℕ × String) :=
  let d := cs.takeWhile isDigitC
  if d.isEmpty then none
  else
    let r := (cs.drop d.length)
    let r2 := r.drop (r.takeWhile pyWs).length
    if isPrefixL ( "kg").data r2 then some (natOfDigits d, "kg")
    else
      match r2 with
      | 'g' :: _ => some (natOfDigits d, "g")
      | 'l' :: _ => some (natOfDigits d, "l")
      | _ =>
        if isPrefixL ( "ml").data r2 then some (natOfDigits d, "ml")
        else if isPrefixL ( "gr").data r2 then some (natOfDigits d, "gr")
        else none

/-- One final product dict of `process_ticket`. -/
structure ScannedProduct where
  name : String
  category : String
  store : String
  price : ℚ
  quantity : ℚ
  unit : String
  location : String
  purchase_date : PyDateTime
  expiration_date : PyDateTime
  notes : String
  deriving DecidableEq, Repr

/-- The per-item enrichment step of `process_ticket`: classify, compute the
expiration date, parse an embedded weight/volume token from the lower-cased
description (falling back to the purchased count when it exceeds 1), title-case
the name and attach the provenance note. -/
def enrichProduct (env : ClassifierEnv) (store location : String)
    (purchase : PyDateTime) (item : LineItem) : ScannedProduct :=
  let cat := categorize_product env item.description
  let expiration := addDays purchase cat.2.1
  let qu : ℚ × String :=
    match scanFirst matchWeight (lowerL item.description.data) with
    | some nu => (mkRat nu.1 1, if nu.2 = "gr" then "g" else nu.2)
    | none => if 1 < item.quantity then (mkRat item.quantity 1, "units") else (1, "units")
  { name := pyTitle item.description
    category := cat.1
    store := store
    price := item.price
    quantity := qu.1
    unit := qu.2
    location := cat.2.2
    purchase_date := purchase
    expiration_date := expiration
    notes := "Importado de ticket " ++ store ++ " - " ++ location }

/-- The result dict of `process_ticket`. -/
structure TicketResult where
  store : String
  location : String
  purchase_date : PyDateTime
  total_amount : ℚ
  iva_details : List IvaDetail
  total_products : ℕ
  products : List ScannedProduct
  raw_text : String
  deriving DecidableEq, Repr

/-- Source method `TicketScannerService.process_ticket` from the OCR text on (the text
extraction itself is the external OCR collaborator; `now` stands for
`datetime.now()`). -/
def process_ticket (env : ClassifierEnv) (now : PyDateTime) (text : String) :
    TicketResult :=
  let store := extract_store_name text
  let location := extract_location text
  let purchase := extract_purchase_date now text
  let products := (parse_product_lines text).map (enrichProduct env store location purchase)
  { store := store
    location := location
    purchase_date := purchase
    total_amount := extractTotal text
    iva_details := ivaDetails text
    total_products := products.length
    products := products
    raw_text := text }

/-- The provenance of one emitted item: its quantity and description are exactly
the quantity extraction applied to the cleaned join of a non-empty buffer of
lines, each of which passed the description test. -/
def flushedFrom (item : LineItem) (ps : List (List Char)) : Prop :=
  ps ≠ [] ∧ (∀ l ∈ ps, is_description l = true) ∧
  item.quantity = (extractQty (cleanDesc (joinSp ps))).1 ∧
  item.description = String.mk (extractQty (cleanDesc (joinSp ps))).2

/-- The price-line test in the specification's words (§4.2): the trimmed line
consists solely of digits, spaces, commas and periods and, after dropping spaces
and normalising comma to dot, parses as a decimal strictly between 0.10 and
200.00.  Spec-side definition, compared against `is_price`. -/
def specIsPrice (s : List Char) (v : ℚ) : Prop :=
  (∀ c ∈ strip s, isDigitC c = true ∨ c = ' ' ∨ c = ',' ∨ c = '.') ∧
  parseDec (commaDot ((strip s).filter (fun c => c ≠ ' '))) = some v ∧
  mkRat 1 10 < v ∧ v < 200

/-! ### Helper lemmas -/

lemma isEmpty_false_of_is_price {s : List Char} {p : ℚ} (h : is_price s = some p) :
    s.isEmpty = false := by
  cases s with
  | nil =>
    rw [show is_price ([] : List Char) = none from rfl] at h
    cases h
  | cons c cs => rfl

lemma is_price_bounds {s : List Char} {p : ℚ} (h : is_price s = some p) :
    mkRat 1 10 < p ∧ p < 200 := by
  simp only [is_price] at h
  split at h
  · split at h
    · split at h
      · cases h
        assumption
      · cases h
    · cases h
  · cases h

/-- Auxiliary: every character of a `float`-accepted token is a digit or a dot. -/
lemma parseDec_chars {cs : List Char} {v : ℚ} (h : parseDec cs = some v) :
    ∀ c ∈ cs, isDigitC c = true ∨ c = '.' := by
  intro c hc
  have hsplit : cs.takeWhile isDigitC ++ cs.dropWhile isDigitC = cs :=
    List.takeWhile_append_dropWhile isDigitC cs
  have hc' : c ∈ cs.takeWhile isDigitC ++ cs.dropWhile isDigitC := by
    rw [hsplit]; exact hc
  rcases List.mem_append.mp hc' with h1 | h2
  · exact Or.inl (List.mem_takeWhile_imp h1)
  · simp only [parseDec] at h
    split at h
    · rename_i heq
      rw [heq] at h2
      cases h2
    · rename_i frac heq
      split at h
      · rename_i hcond
        rw [heq] at h2
        rcases List.mem_cons.mp h2 with rfl | hf
        · exact Or.inr rfl
        · have h1 : frac.all isDigitC = true := by
            cases hfa : frac.all isDigitC
            · rw [hfa] at hcond; simp at hcond
            · rfl
          exact Or.inl (List.all_eq_true.mp h1 c hf)
      · cases h
    · cases h

/-- Auxiliary: a non-space whitespace character is not a digit, dot or comma. -/
lemma pyWs_not_amt {c : Char} (h : pyWs c = true) (hs : c ≠ ' ') :
    isDigitC c = false ∧ c ≠ '.' ∧ c ≠ ',' := by
  simp only [pyWs, Bool.or_eq_true, decide_eq_true_eq] at h
  rcases h with ((((rfl | rfl) | rfl) | rfl) | rfl) | rfl
  · exact absurd rfl hs
  · exact ⟨by decide, by decide, by decide⟩
  · exact ⟨by decide, by decide, by decide⟩
  · exact ⟨by decide, by decide, by decide⟩
  · exact ⟨by decide, by decide, by decide⟩
  · exact ⟨by decide, by decide, by decide⟩

lemma segLoopF_nil : ∀ g parts, segLoopF g [] parts = [] := by
  intro g parts
  cases g <;> rfl

lemma segLoopF_congr :
    ∀ f g lines parts, lines.length ≤ f → lines.length ≤ g →
      segLoopF f lines parts = segLoopF g lines parts := by
  intro f
  induction f with
  | zero =>
    intro g lines parts hf _
    have hlines : lines = [] := by
      cases lines
      · rfl
      · simp at hf
    subst hlines
    rw [segLoopF_nil, segLoopF_nil]
  | succ n ih =>
    intro g lines parts hf hg
    cases lines with
    | nil => rw [segLoopF_nil, segLoopF_nil]
    | cons line rest =>
      cases g with
      | zero => simp at hg
      | succ m =>
        have hrn : rest.length ≤ n := by simpa using hf
        have hrm : rest.length ≤ m := by simpa using hg
        simp only [segLoopF]
        split
        · exact ih m rest parts hrn hrm
        · split
          · split
            · exact ih m rest parts hrn hrm
            · split
              · split
                · rfl
                · rename_i head tail
                  have h2n : tail.length ≤ n := by simp at hrn; omega
                  have h2m : tail.length ≤ m := by simp at hrm; omega
                  split
                  · split
                    · exact congrArg _ (ih m tail [] h2n h2m)
                    · exact congrArg _ (ih m (head :: tail) [] hrn hrm)
                  · exact congrArg _ (ih m (head :: tail) [] hrn hrm)
              · exact congrArg _ (ih m rest [] hrn hrm)
          · split
            · exact ih m rest (parts ++ [strip line]) hrn hrm
            · exact ih m rest parts hrn hrm

lemma segLoopF_eq_segLoop {fuel : ℕ} {lines parts : List (List Char)}
    (h : lines.length ≤ fuel) : segLoopF fuel lines parts = segLoop lines parts :=
  segLoopF_congr fuel lines.length lines parts h (Nat.le_refl _)

lemma segLoopF_mem :
    ∀ fuel lines parts item,
      (∀ l ∈ parts, is_description l = true) →
      item ∈ segLoopF fuel lines parts →
      (∃ ps, flushedFrom item ps) ∧
      (mkRat 1 10 < item.price ∧ item.price < 200) ∧
      (∀ u, item.unit_price = some u → mkRat 1 10 < u ∧ u < 200) := by
  intro fuel
  induction fuel with
  | zero =>
    intro lines parts item _ h
    simp [segLoopF] at h
  | succ n ih =>
    intro lines parts item hparts h
    cases lines with
    | nil => simp [segLoopF] at h
    | cons line rest =>
      simp only [segLoopF] at h
      split at h
      · exact ih rest parts item hparts h
      · split at h
        · split at h
          · exact ih rest parts item hparts h
          · rename_i pval hprice hpartsNe
            have hpne : parts ≠ [] := by
              intro hnil
              rw [hnil] at hpartsNe
              simp at hpartsNe
            split at h
            · split at h
              · simp only [List.mem_singleton] at h
                subst h
                exact ⟨⟨parts, hpne, hparts, rfl, rfl⟩,
                  is_price_bounds hprice, by intro u hu; cases hu⟩
              · split at h
                · split at h
                  · rename_i hnext hlt
                    rcases List.mem_cons.mp h with hh | ht
                    · subst hh
                      exact ⟨⟨parts, hpne, hparts, rfl, rfl⟩,
                        is_price_bounds hnext,
                        by intro u hu; cases hu; exact is_price_bounds hprice⟩
                    · exact ih _ [] item (by intro l hl; cases hl) ht
                  · rcases List.mem_cons.mp h with hh | ht
                    · subst hh
                      exact ⟨⟨parts, hpne, hparts, rfl, rfl⟩,
                        is_price_bounds hprice, by intro u hu; cases hu⟩
                    · exact ih _ [] item (by intro l hl; cases hl) ht
                · rcases List.mem_cons.mp h with hh | ht
                  · subst hh
                    exact ⟨⟨parts, hpne, hparts, rfl, rfl⟩,
                      is_price_bounds hprice, by intro u hu; cases hu⟩
                  · exact ih _ [] item (by intro l hl; cases hl) ht
            · rcases List.mem_cons.mp h with hh | ht
              · subst hh
                exact ⟨⟨parts, hpne, hparts, rfl, rfl⟩,
                  is_price_bounds hprice, by intro u hu; cases hu⟩
              · exact ih _ [] item (by intro l hl; cases hl) ht
        · split at h
          · rename_i hdesc
            refine ih rest (parts ++ [strip line]) item ?_ h
            intro l hl
            rcases List.mem_append.mp hl with hl' | hl'
            · exact hparts l hl'
            · rw [List.mem_singleton.mp hl']
              exact hdesc
          · exact ih rest parts item hparts h

/-! ### Claim theorems -/

/-- Claim C2: at every position of the segmentation window where a price-line
flushes a non-empty description buffer whose parsed quantity exceeds 1 and the
immediately following line is a price-line of strictly greater value, the
segmenter emits the item with `unit_price` the first value and `price` the
second and advances past exactly those two lines; in every other flush the
current value is the sole price with no unit price and exactly one line is
consumed.  (`parse_product_lines` is the walk started on the header/total
window with an empty buffer.) -/
theorem c2_unit_total_disambiguation :
    (∀ (parts : List (List Char)) (line next : List Char) (rest : List (List Char)) (p np : ℚ),
      parts ≠ [] →
      is_price (strip line) = some p →
      1 < (extractQty (cleanDesc (joinSp parts))).1 →
      is_price (strip next) = some np →
      p < np →
      segLoop (line :: next :: rest) parts =
        ⟨(extractQty (cleanDesc (joinSp parts))).1,
          String.mk (extractQty (cleanDesc (joinSp parts))).2, some p, np⟩ :: segLoop rest []) ∧
    (∀ (parts : List (List Char)) (line next : List Char) (rest : List (List Char)) (p : ℚ),
      parts ≠ [] →
      is_price (strip line) = some p →
      (1 < (extractQty (cleanDesc (joinSp parts))).1 →
        ∀ np, is_price (strip next) = some np → np ≤ p) →
      segLoop (line :: next :: rest) parts =
        ⟨(extractQty (cleanDesc (joinSp parts))).1,
          String.mk (extractQty (cleanDesc (joinSp parts))).2, none, p⟩
          :: segLoop (next :: rest) []) ∧
    (∀ text : String, parse_product_lines text =
      segLoop (((splitNL text.data).take
        (findEnd (splitNL text.data) (findStart (splitNL text.data)))).drop
          (findStart (splitNL text.data))) []) := by
  refine ⟨?_, ?_, fun _ => rfl⟩
  · intro parts line next rest p np hpn hp hq hnp hlt
    have hne : (strip line).isEmpty = false := isEmpty_false_of_is_price hp
    have hpe : parts.isEmpty = false := by
      cases parts
      · exact absurd rfl hpn
      · rfl
    show segLoopF (rest.length + 1 + 1) (line :: next :: rest) parts = _
    simp only [segLoopF, hne, hp, hpe, hnp, Bool.false_eq_true, if_false, hq, if_pos,
      if_true, hlt]
    exact congrArg _ (segLoopF_eq_segLoop (Nat.le_succ _))
  · intro parts line next rest p hpn hp hother
    have hne : (strip line).isEmpty = false := isEmpty_false_of_is_price hp
    have hpe : parts.isEmpty = false := by
      cases parts
      · exact absurd rfl hpn
      · rfl
    show segLoopF (rest.length + 1 + 1) (line :: next :: rest) parts =
      ⟨(extractQty (cleanDesc (joinSp parts))).1,
        String.mk (extractQty (cleanDesc (joinSp parts))).2, none, p⟩
        :: segLoopF (rest.length + 1) (next :: rest) []
    by_cases hq : 1 < (extractQty (cleanDesc (joinSp parts))).1
    · cases hnp : is_price (strip next) with
      | none =>
        simp only [segLoopF, hne, hp, hpe, hnp, Bool.false_eq_true, if_false, hq, if_true]
      | some np =>
        have hnl : ¬p < np := not_lt.mpr (hother hq np hnp)
        simp only [segLoopF, hne, hp, hpe, hnp, Bool.false_eq_true, if_false, hq, if_true,
          hnl]
    · simp only [segLoopF, hne, hp, hpe, Bool.false_eq_true, if_false, hq]

/-- Witness for C2 at a concrete window state. -/
theorem c2_unit_total_disambiguation_witness :
    segLoop [( "1.50").data, ( "3.00").data] [( "2 Pasta").data] =
      [⟨2, "Pasta", some (mkRat 3 2), 3⟩] ∧
    segLoop [( "1.50").data, ( "1.20").data] [( "2 Pasta").data] =
      [⟨2, "Pasta", none, mkRat 3 2⟩] := by
  constructor
  · have h := c2_unit_total_disambiguation.1 [( "2 Pasta").data]
      ( "1.50").data ( "3.00").data [] (mkRat 3 2) 3
      (by decide) (by decide) (by decide) (by decide) (by decide)
    rw [h]
    decide
  · have hother : 1 < (extractQty (cleanDesc (joinSp [( "2 Pasta").data]))).1 →
        ∀ np, is_price (strip ( "1.20").data) = some np → np ≤ mkRat 3 2 := by
      intro _ np hnp
      have hv : is_price (strip ( "1.20").data) = some (mkRat 6 5) := by decide
      rw [hv] at hnp
      cases hnp
      decide
    have h := c2_unit_total_disambiguation.2.1 [( "2 Pasta").data]
      ( "1.50").data ( "1.20").data [] (mkRat 3 2)
      (by decide) (by decide) hother
    rw [h]
    decide

/-- Claim C1 (counterexample): on the scenario's literal line sequence the
quantity line "2" is itself accepted by the price test (2 ∈ (0.10, 200)), so the
buffer flushes there: the code emits quantity 1, no unit price, and price 2.00 —
not the item the scenario promises. -/
theorem c1_scenario_counterexample :
    parse_product_lines ( "DESCRIPCIÓN\nPasta Barilla\n2\n1.50\n3.00\nTOTAL 3.00") =
      [⟨1, "Pasta Barilla", none, 2⟩] ∧
    parse_product_lines ( "DESCRIPCIÓN\nPasta Barilla\n2\n1.50\n3.00\nTOTAL 3.00") ≠
      [⟨2, "Pasta Barilla", some (mkRat 3 2), 3⟩] := by
  decide

/-- Claim C1 (amended): when the quantity is part of the description line, as on
the receipts this parser targets, the scenario's item is produced: input lines
"DESCRIPCIÓN", "2 Pasta Barilla", "1.50", "3.00", "TOTAL 3.00" yield exactly one
item with quantity 2, description "Pasta Barilla", unit price 1.50, price 3.00. -/
theorem c1_scenario_amended :
    parse_product_lines ( "DESCRIPCIÓN\n2 Pasta Barilla\n1.50\n3.00\nTOTAL 3.00") =
      [⟨2, "Pasta Barilla", some (mkRat 3 2), 3⟩] := by
  decide

/-- Claim C3: the price test accepts a line with value `v` exactly when the
specification's characterization holds (the source's `\s` class is wider than
"spaces", but a non-space whitespace character survives the space-stripping and
makes the float parse fail, so the two agree); in particular "15000" is not a
price, and no emitted item ever carries price 15000. -/
theorem c3_price_line_characterization :
    (∀ (s : List Char) (v : ℚ), is_price s = some v ↔ specIsPrice s v) ∧
    is_price ( "15000").data = none ∧
    (∀ (text : String) item, item ∈ parse_product_lines text → item.price ≠ 15000) := by
  refine ⟨?_, by decide, ?_⟩
  · intro s v
    constructor
    · intro h
      simp only [is_price] at h
      split at h
      · rename_i hcond
        obtain ⟨hno, hall⟩ : (!(strip s).isEmpty) = true ∧ (strip s).all priceClass = true := by
          constructor
          · cases hie : (!(strip s).isEmpty)
            · rw [hie] at hcond; simp at hcond
            · rfl
          · cases hia : (strip s).all priceClass
            · rw [hia] at hcond; simp at hcond
            · rfl
        split at h
        · rename_i price heqp
          split at h
          · rename_i hb
            cases h
            refine ⟨?_, heqp, hb.1, hb.2⟩
            intro c hcm
            have hpc := List.all_eq_true.mp hall c hcm
            simp only [priceClass, Bool.or_eq_true, decide_eq_true_eq] at hpc
            rcases hpc with ((hd | hw) | hcm') | hdot
            · exact Or.inl hd
            · by_cases hsp : c = ' '
              · exact Or.inr (Or.inl hsp)
              · exfalso
                obtain ⟨hd0, hdot, hcom⟩ := pyWs_not_amt hw hsp
                have hmem1 : c ∈ (strip s).filter (fun c => c ≠ ' ') :=
                  List.mem_filter.mpr ⟨hcm, by simpa using hsp⟩
                have hmem2 : c ∈ commaDot ((strip s).filter (fun c => c ≠ ' ')) := by
                  have hthis := List.mem_map_of_mem (fun c => if c = ',' then '.' else c) hmem1
                  simp only [hcom, if_false] at hthis
                  exact hthis
                rcases parseDec_chars heqp c hmem2 with hdd | hdd
                · rw [hd0] at hdd; cases hdd
                · exact hdot hdd
            · exact Or.inr (Or.inr (Or.inl hcm'))
            · exact Or.inr (Or.inr (Or.inr hdot))
          · cases h
        · cases h
      · cases h
    · rintro ⟨hclass, hparse, hb1, hb2⟩
      have hne : (strip s).isEmpty = false := by
        cases hss : strip s with
        | nil =>
          rw [hss] at hparse
          rw [show parseDec (commaDot (List.filter (fun c => decide (c ≠ ' ')) [])) = none
            from rfl] at hparse
          cases hparse
        | cons c cs => rfl
      have hall : (strip s).all priceClass = true := by
        refine List.all_eq_true.mpr ?_
        intro c hcm
        rcases hclass c hcm with hd | hsp | hcm' | hdot
        · simp [priceClass, hd]
        · simp [priceClass, pyWs, hsp]
        · simp [priceClass, hcm']
        · simp [priceClass, hdot]
      simp only [is_price, hne, hall, Bool.not_false, Bool.and_self, if_true]
      rw [show ((strip s).filter (fun c => c ≠ ' ')).map
            (fun c => if c = ',' then '.' else c)
          = commaDot ((strip s).filter (fun c => c ≠ ' ')) from rfl, hparse]
      show (if mkRat 1 10 < v ∧ v < 200 then some v else none) = some v
      rw [if_pos ⟨hb1, hb2⟩]
  · intro text item h
    have hb := (segLoopF_mem _ _ [] item (fun l hl => absurd hl (List.not_mem_nil l)) h).2.1
    have : item.price < 15000 := lt_trans hb.2 (by decide)
    exact ne_of_lt this

/-- Witness for C3: a price-line accepted with its value, and a concrete parse in
whose output no price is 15000. -/
theorem c3_price_line_characterization_witness :
    specIsPrice ( "1.50").data (mkRat 3 2) ∧
    (⟨1, "Pasta", none, mkRat 3 2⟩ : LineItem).price ≠ 15000 :=
  ⟨(c3_price_line_characterization.1 ( "1.50").data (mkRat 3 2)).mp (by decide),
   c3_price_line_characterization.2.2 ( "Pasta\n15000\n1.50") _ (by decide)⟩

/-- Claim C7 (counterexample): a flushed description beginning with the literal
integer 0 produces an emitted LineItem whose quantity is 0, not a positive
integer. -/
theorem c7_quantity_counterexample :
    parse_product_lines ( "0 Pasta\n1.50") = [⟨0, "Pasta", none, mkRat 3 2⟩] ∧
    ∃ item ∈ parse_product_lines ( "0 Pasta\n1.50"), item.quantity = 0 := by
  decide

/-- Claim C7 (amended): every emitted LineItem's quantity is the leading-integer
extraction of its flushed cleaned description — the parsed leading integer
(which the regex `^(\d+)\s+(.+)` allows to be 0) when the description starts
with an integer followed by whitespace, and the default 1 otherwise; so the
quantity is at least 1 except when an explicit leading integer of value 0 was
present. -/
theorem c7_quantity_amended :
    ∀ (text : String) item, item ∈ parse_product_lines text →
      ∃ s : List Char,
        item.quantity = (extractQty s).1 ∧
        item.description = String.mk (extractQty s).2 ∧
        (qtyMatch s = none → item.quantity = 1) ∧
        (1 ≤ item.quantity ∨
          ∃ ds g2, qtyMatch s = some (ds, g2) ∧ natOfDigits ds = 0) := by
  intro text item h
  obtain ⟨ps, _, _, hq, hd⟩ :=
    (segLoopF_mem _ _ [] item (fun l hl => absurd hl (List.not_mem_nil l)) h).1
  refine ⟨cleanDesc (joinSp ps), hq, hd, ?_, ?_⟩
  · intro hnone
    rw [hq]
    simp [extractQty, hnone]
  · rw [hq]
    cases hm : qtyMatch (cleanDesc (joinSp ps)) with
    | none =>
      left
      simp [extractQty, hm]
    | some dsg2 =>
      obtain ⟨ds, g2⟩ := dsg2
      rcases Nat.eq_zero_or_pos (natOfDigits ds) with h0 | hpos
      · right
        exact ⟨ds, g2, rfl, h0⟩
      · left
        simpa [extractQty, hm] using hpos

/-- Witness for C7 (amended) at a concrete parse. -/
theorem c7_quantity_amended_witness :
    ∃ s : List Char,
      (⟨1, "Pasta", none, mkRat 3 2⟩ : LineItem).quantity = (extractQty s).1 ∧
      (⟨1, "Pasta", none, mkRat 3 2⟩ : LineItem).description = String.mk (extractQty s).2 ∧
      (qtyMatch s = none → (⟨1, "Pasta", none, mkRat 3 2⟩ : LineItem).quantity = 1) ∧
      (1 ≤ (⟨1, "Pasta", none, mkRat 3 2⟩ : LineItem).quantity ∨
        ∃ ds g2, qtyMatch s = some (ds, g2) ∧ natOfDigits ds = 0) :=
  c7_quantity_amended ( "Pasta\n1.50") ⟨1, "Pasta", none, mkRat 3 2⟩ (by decide)

/-- Claim C10: a line whose lower-cased (stripped) form contains any stoplist
token — including genuine product names like "Aceite de Oliva", which contains
"iva" — is rejected by the description test, and every emitted item's quantity
and description come only from lines that passed the description test (an
explicit flushed buffer of accepted lines). -/
theorem c10_stoplist_rejection :
    (∀ line : List Char,
      skipWords.any (fun w => infixOfL w.data (lowerL (strip line))) = true →
      is_description line = false) ∧
    (∀ (text : String) item, item ∈ parse_product_lines text →
      ∃ ps, flushedFrom item ps) := by
  constructor
  · intro line h
    simp only [is_description, h, Bool.not_true]
    split
    · rfl
    · split
      · rfl
      · split
        · rfl
        · rfl
  · intro text item h
    exact (segLoopF_mem _ _ [] item (fun l hl => absurd hl (List.not_mem_nil l)) h).1

/-- Witness for C10: "Aceite de Oliva" is rejected (its lower-cased form contains
the stoplist token "iva"), and a concretely parsed item has an accepted buffer. -/
theorem c10_stoplist_rejection_witness :
    is_description ( "Aceite de Oliva").data = false ∧
    (∃ ps, flushedFrom ⟨1, "Pasta", none, mkRat 3 2⟩ ps) :=
  ⟨c10_stoplist_rejection.1 ( "Aceite de Oliva").data (by decide),
   c10_stoplist_rejection.2 ( "Pasta\n1.50") ⟨1, "Pasta", none, mkRat 3 2⟩ (by decide)⟩

/-- Claim C4 (counterexample): the totals extractor only ever examines the
*first* match of each pattern.  On "TOTAL 50000 TOTAL 25.50" the first
total-labelled match (50000) is out of bounds, so the in-bounds later match
25.50 is never considered and the total stays 0.0 — the claim would require
25.50. -/
theorem c4_total_counterexample :
    (allTotal1Values ( "TOTAL 50000 TOTAL 25.50").data).find?
        (fun v => decide (1 < v ∧ v < 10000)) = some (mkRat 51 2) ∧
    extractTotal ( "TOTAL 50000 TOTAL 25.50") = 0 ∧
    (0 : ℚ) ≠ mkRat 51 2 := by
  decide

/-- Claim C4 (amended): the total is decided by the first `re.search` match of
each pattern in priority order: the first pattern's first match wins when its
value parses into (1, 10000); otherwise the second pattern's first match is
considered the same way; otherwise the total is 0.0.  An out-of-bounds first
match of a pattern blocks every later match of that same pattern. -/
theorem c4_total_first_match_per_pattern :
    (∀ (text : String) (v : ℚ),
      totalValue matchTotal1 text.data = some v → 1 < v → v < 10000 →
      extractTotal text = v) ∧
    (∀ (text : String) (v : ℚ),
      (∀ w, totalValue matchTotal1 text.data = some w → ¬(1 < w ∧ w < 10000)) →
      totalValue matchTotal2 text.data = some v → 1 < v → v < 10000 →
      extractTotal text = v) ∧
    (∀ text : String,
      (∀ w, totalValue matchTotal1 text.data = some w → ¬(1 < w ∧ w < 10000)) →
      (∀ w, totalValue matchTotal2 text.data = some w → ¬(1 < w ∧ w < 10000)) →
      extractTotal text = 0) := by
  refine ⟨?_, ?_, ?_⟩
  · intro text v h h1 h2
    simp only [extractTotal, h]
    rw [if_pos ⟨h1, h2⟩]
  · intro text v hno h h1 h2
    cases hv1 : totalValue matchTotal1 text.data with
    | none =>
      simp only [extractTotal, hv1, h]
      rw [if_pos ⟨h1, h2⟩]
    | some w =>
      have hw := hno w hv1
      simp only [extractTotal, hv1, h]
      rw [if_neg hw, if_pos ⟨h1, h2⟩]
  · intro text hno1 hno2
    cases hv1 : totalValue matchTotal1 text.data with
    | none =>
      cases hv2 : totalValue matchTotal2 text.data with
      | none => simp only [extractTotal, hv1, hv2]
      | some w =>
        simp only [extractTotal, hv1, hv2]
        rw [if_neg (hno2 w hv2)]
    | some w =>
      cases hv2 : totalValue matchTotal2 text.data with
      | none =>
        simp only [extractTotal, hv1, hv2]
        rw [if_neg (hno1 w hv1)]
      | some w2 =>
        simp only [extractTotal, hv1, hv2]
        rw [if_neg (hno1 w hv1), if_neg (hno2 w2 hv2)]

/-- Witness for C4 (amended) on concrete texts for all three branches. -/
theorem c4_total_first_match_witness :
    extractTotal ( "TOTAL 3.00") = 3 ∧
    extractTotal ( "TOTAL 99999\nImporte; 44,10€") = mkRat 441 10 ∧
    extractTotal ( "TOTAL 50000 TOTAL 25.50") = 0 :=
  ⟨c4_total_first_match_per_pattern.1 ( "TOTAL 3.00") 3
      (by decide) (by decide) (by decide),
   c4_total_first_match_per_pattern.2.1 ( "TOTAL 99999\nImporte; 44,10€") (mkRat 441 10)
      (by decide) (by decide) (by decide) (by decide),
   c4_total_first_match_per_pattern.2.2 ( "TOTAL 50000 TOTAL 25.50")
      (by decide) (by decide)⟩

/-- Claim C5: when some reference-table key is contained in the lower-cased
description, the classifier returns the mapped triple of the first such key in
table order, whatever the fuzzy matcher, keyword table and defaults are (the
later tiers are never consulted). -/
theorem c5_exact_containment :
    (∀ (env : ClassifierEnv) (name : String) (t : String × ℕ × String),
      findContainedDB env.db (lowerL name.data) = some t →
      categorize_product env name = t) ∧
    (∀ (env : ClassifierEnv) (name : String) (k : String) (t : String × ℕ × String),
      (k, t) ∈ env.db → infixOfL k.data (lowerL name.data) = true →
      (findContainedDB env.db (lowerL name.data)).isSome = true) := by
  constructor
  · intro env name t h
    simp only [categorize_product, h]
  · intro env name k t hmem hin
    have hfind : (env.db.find? (fun kv => infixOfL kv.1.data (lowerL name.data))).isSome :=
      List.find?_isSome.mpr ⟨(k, t), hmem, hin⟩
    simpa [findContainedDB] using hfind

/-- Witness for C5: a one-entry table and a description with surrounding words. -/
theorem c5_exact_containment_witness :
    categorize_product
      ⟨[( "pasta", "pasta_cat", 365, "pantry")], fun _ => none, [],
        fun _ => 0, fun _ => ""⟩ ( "Rich PASTA Deluxe") = ( "pasta_cat", 365, "pantry") ∧
    (findContainedDB [( "pasta", "pasta_cat", 365, "pantry")]
      (lowerL ( "Rich PASTA Deluxe").data)).isSome = true :=
  ⟨c5_exact_containment.1
      ⟨[( "pasta", "pasta_cat", 365, "pantry")], fun _ => none, [],
        fun _ => 0, fun _ => ""⟩ ( "Rich PASTA Deluxe") ( "pasta_cat", 365, "pantry")
      (by decide),
   c5_exact_containment.2
      ⟨[( "pasta", "pasta_cat", 365, "pantry")], fun _ => none, [],
        fun _ => 0, fun _ => ""⟩ ( "Rich PASTA Deluxe") ( "pasta")
      ( "pasta_cat", 365, "pantry") (by decide) (by decide)⟩

/-- Claim C6 (counterexample): the no-match sentinel of the store-name extractor
is the Spanish "Desconocido", not the claim's "Unknown". -/
theorem c6_sentinel_counterexample :
    storeTable.all (fun kv => !infixOfL kv.1.data (lowerL ( "x").data)) = true ∧
    extract_store_name ( "x") = "Desconocido" ∧
    extract_store_name ( "x") ≠ "Unknown" := by
  decide

/-- Claim C6 (amended): each metadata extractor returns its sentinel without
raising: "Desconocido" when no retailer fragment occurs in the lower-cased text,
total 0.0 when neither total pattern matches, and the passed-in current datetime
when neither date pattern matches. -/
theorem c6_no_match_defaults :
    ∀ (text : String) (now : PyDateTime),
      ((∀ kv ∈ storeTable, infixOfL kv.1.data (lowerL text.data) = false) →
        extract_store_name text = "Desconocido") ∧
      (scanFirst matchTotal1 text.data = none → scanFirst matchTotal2 text.data = none →
        extractTotal text = 0) ∧
      (searchDate '/' text.data = none → searchDate '-' text.data = none →
        extract_purchase_date now text = now) := by
  intro text now
  refine ⟨?_, ?_, ?_⟩
  · intro h
    have hfind : storeTable.find? (fun kv => infixOfL kv.1.data (lowerL text.data)) = none :=
      List.find?_eq_none.mpr (fun kv hkv => by simp [h kv hkv])
    simp [extract_store_name, hfind]
  · intro h1 h2
    simp [extractTotal, totalValue, h1, h2]
  · intro h1 h2
    simp [extract_purchase_date, h1, h2]

/-- Witness for C6 (amended) on a one-character text with no matches. -/
theorem c6_no_match_defaults_witness :
    extract_store_name ( "x") = "Desconocido" ∧
    extractTotal ( "x") = 0 ∧
    extract_purchase_date ⟨0, 0⟩ ( "x") = ⟨0, 0⟩ :=
  ⟨(c6_no_match_defaults ( "x") ⟨0, 0⟩).1 (by decide),
   (c6_no_match_defaults ( "x") ⟨0, 0⟩).2.1 (by decide) (by decide),
   (c6_no_match_defaults ( "x") ⟨0, 0⟩).2.2 (by decide) (by decide)⟩

/-- Claim C8: every product of the orchestrator carries
`expiration_date = purchase_date + shelf_life_days` for the classified shelf
life of its source item's description, as pure day arithmetic — the
time-of-day component is untouched — with the shared extracted purchase date. -/
theorem c8_expiration_date_arithmetic :
    ∀ (env : ClassifierEnv) (now : PyDateTime) (text : String) p,
      p ∈ (process_ticket env now text).products →
      ∃ item, item ∈ parse_product_lines text ∧
        p.purchase_date = extract_purchase_date now text ∧
        p.expiration_date = addDays p.purchase_date
          (categorize_product env item.description).2.1 ∧
        p.expiration_date.sec = p.purchase_date.sec ∧
        p.name = pyTitle item.description := by
  intro env now text p hp
  simp only [process_ticket, List.mem_map] at hp
  obtain ⟨item, hitem, rfl⟩ := hp
  exact ⟨item, hitem, rfl, rfl, rfl, rfl⟩

/-- Witness for C8 on a concrete one-item ticket with the default classifier
environment (shelf life 30 days shifts the day serial by 30, seconds kept). -/
theorem c8_expiration_date_arithmetic_witness :
    ∃ item, item ∈ parse_product_lines ( "Pasta\n1.50") ∧
      (enrichProduct ⟨[], fun _ => none, [], fun _ => 0, fun _ => ""⟩
        "Desconocido" "Desconocido" ⟨0, 7⟩ ⟨1, "Pasta", none, mkRat 3 2⟩).purchase_date =
        extract_purchase_date ⟨0, 7⟩ ( "Pasta\n1.50") ∧
      (enrichProduct ⟨[], fun _ => none, [], fun _ => 0, fun _ => ""⟩
        "Desconocido" "Desconocido" ⟨0, 7⟩ ⟨1, "Pasta", none, mkRat 3 2⟩).expiration_date =
        addDays (enrichProduct ⟨[], fun _ => none, [], fun _ => 0, fun _ => ""⟩
          "Desconocido" "Desconocido" ⟨0, 7⟩ ⟨1, "Pasta", none, mkRat 3 2⟩).purchase_date
          (categorize_product ⟨[], fun _ => none, [], fun _ => 0, fun _ => ""⟩
            item.description).2.1 ∧
      (enrichProduct ⟨[], fun _ => none, [], fun _ => 0, fun _ => ""⟩
        "Desconocido" "Desconocido" ⟨0, 7⟩ ⟨1, "Pasta", none, mkRat 3 2⟩).expiration_date.sec =
        (enrichProduct ⟨[], fun _ => none, [], fun _ => 0, fun _ => ""⟩
          "Desconocido" "Desconocido" ⟨0, 7⟩ ⟨1, "Pasta", none, mkRat 3 2⟩).purchase_date.sec ∧
      (enrichProduct ⟨[], fun _ => none, [], fun _ => 0, fun _ => ""⟩
        "Desconocido" "Desconocido" ⟨0, 7⟩ ⟨1, "Pasta", none, mkRat 3 2⟩).name =
        pyTitle item.description :=
  c8_expiration_date_arithmetic ⟨[], fun _ => none, [], fun _ => 0, fun _ => ""⟩
    ⟨0, 7⟩ ( "Pasta\n1.50")
    (enrichProduct ⟨[], fun _ => none, [], fun _ => 0, fun _ => ""⟩
      "Desconocido" "Desconocido" ⟨0, 7⟩ ⟨1, "Pasta", none, mkRat 3 2⟩)
    (by decide)

/-- Claim C9: the classifier is total and returns the default triple
("other", 30 days, "pantry") whenever the exact-containment tier finds no key,
the fuzzy tier does not produce a table entry with score above 70, and no
category keyword is contained in the lower-cased description. -/
theorem c9_classifier_default :
    ∀ (env : ClassifierEnv) (name : String),
      findContainedDB env.db (lowerL name.data) = none →
      (70 < (fuzzyBest env (splitWs (lowerL name.data))).1 →
        (fuzzyBest env (splitWs (lowerL name.data))).2 = none) →
      (∀ ck ∈ env.keywords, ∀ kw ∈ ck.2, infixOfL kw.data (lowerL name.data) = false) →
      categorize_product env name = ( "other", 30, "pantry") := by
  intro env name h1 h2 h3
  have hkw : keywordTier env (lowerL name.data) = ( "other", 30, "pantry") := by
    have hnone : env.keywords.findSome? (fun ck =>
        if ck.2.any (fun kw => infixOfL kw.data (lowerL name.data)) then some ck.1
        else none) = none := by
      refine List.findSome?_eq_none_iff.mpr ?_
      intro ck hck
      rw [if_neg]
      intro hany
      obtain ⟨kw, hkwm, hkin⟩ := List.any_eq_true.mp hany
      rw [h3 ck hck kw hkwm] at hkin
      cases hkin
    simp only [keywordTier, hnone]
  simp only [categorize_product, h1]
  split
  · rename_i hgt
    rw [h2 hgt]
    exact hkw
  · exact hkw

/-- Witness for C9 with the empty tables. -/
theorem c9_classifier_default_witness :
    categorize_product ⟨[], fun _ => none, [], fun _ => 0, fun _ => ""⟩ ( "zzz") =
      ( "other", 30, "pantry") :=
  c9_classifier_default ⟨[], fun _ => none, [], fun _ => 0, fun _ => ""⟩ ( "zzz")
    (by decide) (fun hgt => absurd hgt (by decide)) (by simp)

example : is_price ( "1.50").data = some (mkRat 3 2) := by decide
example : is_price ( "2").data = some 2 := by decide
example : is_price ( " 12,50 ").data = some (mkRat 25 2) := by decide
example : is_price ( "15000").data = none := by decide
example : is_price ( "0.10").data = none := by decide
example : is_price ( "1.2.3").data = none := by decide
example : is_description ( "Pasta Barilla").data = true := by decide
example : is_description ( "Aceite de Oliva").data = false := by decide
example : is_description ( "12,50").data = false := by decide

end TicketScan
